import Mathlib

/-!
Verification of the slurm_workflows pilot-job coordinator design.

The repository ships the protocol schema `slurm_pilot.proto` (service
Coordinator with four rpcs and the messages Empty, WorkerProcessID, TaskDefn,
TaskAssignment, TaskResult).  The coordinator's behaviour (worker registry,
task registry, FIFO assignment queue, exit flag) is modelled from the design
document, and the schema itself is transcribed as data so that claims about
the rpc surface and the wire field names can be settled by computation.
-/

namespace SlurmPilot

/-- WorkerProcessID message of slurm_pilot.proto: identity of one pilot worker
process.  Field names follow the proto file. -/
structure WorkerProcessID where
  type : String
  name : String
  slurm_job_id : Int
  hostname : String
  pid : Int
deriving DecidableEq

/-- TaskDefn message of slurm_pilot.proto: one unit of work.  The payloads
(function, args, kwargs) are opaque byte blobs, modelled as lists of byte
values; the coordinator never inspects them. -/
structure TaskDefn where
  task_id : String
  function : List Nat
  args : List Nat
  kwargs : List Nat
  type : String
deriving DecidableEq

/-- TaskAssignment message of slurm_pilot.proto: the response of GetNextTask.
The task field is optional: it is absent when no task is handed out. -/
structure TaskAssignment where
  exit_flag : Bool
  task_available : Bool
  task : Option TaskDefn
deriving DecidableEq

/-- TaskResult message of slurm_pilot.proto: one worker's report on a task.
Field names follow the proto file. -/
structure TaskResult where
  task_id : String
  task_success : Bool
  return_ : List Nat
  error : String
  error_id : String
  process_id : WorkerProcessID
deriving DecidableEq

/-- Modelled from the spec: the task lifecycle states PENDING, ASSIGNED,
DONE, FAILED (the coordinator implementation, slurm_pilot.py, is not among the
sources; only its schema slurm_pilot.proto is).  An ASSIGNED task records the
(kind, name) key of the worker holding it. -/
inductive TaskState where
  | pending
  | assigned (worker : String × String)
  | done
  | failed
deriving DecidableEq

/-- Modelled from the spec: the logical worker key is the (kind, name) tuple;
the proto names the kind field type. -/
def workerKey (w : WorkerProcessID) : String × String := (w.type, w.name)

/-- Modelled from the spec: the coordinator-owned state, absent from the
sources.  workers lists the currently ACTIVE worker identities; tasks holds
every submitted task in submission order, paired with its lifecycle state (so
FIFO order is the list order and a requeued task keeps its position);
exit_flag is the process-wide shutdown signal. -/
structure CoordinatorState where
  workers : List WorkerProcessID
  tasks : List (TaskDefn × TaskState)
  exit_flag : Bool
deriving DecidableEq

/-- Outcome of RegisterWorkerProcess, modelled from the spec. -/
inductive RegisterResult where
  | ok
  | alreadyRegistered
deriving DecidableEq

/-- Outcome of UnregisterWorkerProcess, modelled from the spec. -/
inductive UnregisterResult where
  | ok
  | notRegistered
deriving DecidableEq

/-- Outcome of task submission, modelled from the spec. -/
inductive SubmitResult where
  | ok
  | duplicateTaskId
deriving DecidableEq

/-- Outcome of SetTaskResult, modelled from the spec. -/
inductive SetTaskResultStatus where
  | ok
  | unknownTaskId
  | notAssigned
deriving DecidableEq

/-- Outcome of GetNextTask, modelled from the spec: either a TaskAssignment
response, or the caller-not-registered error. -/
inductive GetNextTaskResult where
  | assignment (a : TaskAssignment)
  | notRegistered
deriving DecidableEq

/-- Whether a worker with the same (kind, name) key is currently ACTIVE. -/
def isRegistered (s : CoordinatorState) (w : WorkerProcessID) : Bool :=
  s.workers.any (fun v => workerKey v == workerKey w)

/-- Modelled from the spec: RegisterWorkerProcess fails with AlreadyRegistered
when an entry with the same (kind, name) key is already ACTIVE; otherwise it
inserts the worker. -/
def register (s : CoordinatorState) (w : WorkerProcessID) :
    RegisterResult × CoordinatorState :=
  if isRegistered s w then (RegisterResult.alreadyRegistered, s)
  else (RegisterResult.ok, ⟨s.workers ++ [w], s.tasks, s.exit_flag⟩)

/-- Requeue helper: a task ASSIGNED to the given worker key returns to
PENDING; every other state is unchanged. -/
def requeue (key : String × String) : TaskState → TaskState
  | TaskState.assigned k => if k = key then TaskState.pending else TaskState.assigned k
  | st => st

/-- Modelled from the spec: UnregisterWorkerProcess removes the entry if
present and returns every task ASSIGNED to this worker to PENDING; it fails
with NotRegistered if the worker is absent, with no side effects. -/
def unregister (s : CoordinatorState) (w : WorkerProcessID) :
    UnregisterResult × CoordinatorState :=
  if isRegistered s w then
    (UnregisterResult.ok,
     ⟨s.workers.filter (fun v => workerKey v != workerKey w),
      s.tasks.map (fun e => (e.1, requeue (workerKey w) e.2)),
      s.exit_flag⟩)
  else (UnregisterResult.notRegistered, s)

/-- Modelled from the spec: a task's optional kind tag restricts which worker
kinds may receive it; an empty tag matches every worker. -/
def kindMatches (w : WorkerProcessID) (d : TaskDefn) : Bool :=
  d.type == "" || d.type == w.type

/-- Modelled from the spec: the first PENDING task, in submission order, whose
kind tag matches the requesting worker. -/
def findPending (w : WorkerProcessID) :
    List (TaskDefn × TaskState) → Option TaskDefn
  | [] => none
  | e :: rest =>
    if e.2 = TaskState.pending ∧ kindMatches w e.1 = true then some e.1
    else findPending w rest

/-- Rewrite the lifecycle state of every task with the given task_id. -/
def updateTask (tid : String) (f : TaskState → TaskState)
    (ts : List (TaskDefn × TaskState)) : List (TaskDefn × TaskState) :=
  ts.map (fun e => if e.1.task_id = tid then (e.1, f e.2) else e)

/-- State of the first task carrying the given task_id, if any. -/
def lookupState (ts : List (TaskDefn × TaskState)) (tid : String) :
    Option TaskState :=
  (ts.find? (fun e => e.1.task_id == tid)).map (fun e => e.2)

/-- Modelled from the spec: GetNextTask for a registered caller returns the
exit signal when the exit flag is set; otherwise it atomically moves the first
matching PENDING task to ASSIGNED and returns it, or reports that no task is
available, leaving the state unchanged.  An unregistered caller gets the
NotRegistered error. -/
def getNextTask (s : CoordinatorState) (w : WorkerProcessID) :
    GetNextTaskResult × CoordinatorState :=
  if isRegistered s w then
    if s.exit_flag then (GetNextTaskResult.assignment ⟨true, false, none⟩, s)
    else
      match findPending w s.tasks with
      | some d =>
        (GetNextTaskResult.assignment ⟨false, true, some d⟩,
         ⟨s.workers,
          updateTask d.task_id (fun _ => TaskState.assigned (workerKey w)) s.tasks,
          s.exit_flag⟩)
      | none => (GetNextTaskResult.assignment ⟨false, false, none⟩, s)
  else (GetNextTaskResult.notRegistered, s)

/-- Modelled from the spec: SetTaskResult transitions an ASSIGNED task to DONE
or FAILED according to the success flag; it fails softly with UnknownTaskId
for a task never submitted and with NotAssigned for a task not currently
ASSIGNED, leaving the state unchanged. -/
def setTaskResult (s : CoordinatorState) (r : TaskResult) :
    SetTaskResultStatus × CoordinatorState :=
  match lookupState s.tasks r.task_id with
  | none => (SetTaskResultStatus.unknownTaskId, s)
  | some (TaskState.assigned _) =>
    (SetTaskResultStatus.ok,
     ⟨s.workers,
      updateTask r.task_id
        (fun _ => if r.task_success then TaskState.done else TaskState.failed)
        s.tasks,
      s.exit_flag⟩)
  | some _ => (SetTaskResultStatus.notAssigned, s)

/-- Modelled from the spec: the driver submits a task, rejected when the
task_id already exists, otherwise appended in PENDING state. -/
def submit (s : CoordinatorState) (d : TaskDefn) :
    SubmitResult × CoordinatorState :=
  match lookupState s.tasks d.task_id with
  | some _ => (SubmitResult.duplicateTaskId, s)
  | none =>
    (SubmitResult.ok, ⟨s.workers, s.tasks ++ [(d, TaskState.pending)], s.exit_flag⟩)

/-- Modelled from the spec: the administrative call raising the process-wide
exit flag. -/
def setExitFlag (s : CoordinatorState) : CoordinatorState :=
  ⟨s.workers, s.tasks, true⟩

/-- State of the first task with the given task_id in the coordinator. -/
def taskState (s : CoordinatorState) (tid : String) : Option TaskState :=
  lookupState s.tasks tid

/-- Well-formedness: no two submitted tasks share a task_id (submit enforces
this; it is an invariant of reachable coordinator states). -/
def uniqueTaskIds (s : CoordinatorState) : Prop :=
  (s.tasks.map (fun e => e.1.task_id)).Nodup

instance (s : CoordinatorState) : Decidable (uniqueTaskIds s) :=
  List.nodupDecidable _

/-- One protocol operation against the coordinator. -/
inductive Op where
  | submit (d : TaskDefn)
  | register (w : WorkerProcessID)
  | unregister (w : WorkerProcessID)
  | getNextTask (w : WorkerProcessID)
  | setTaskResult (r : TaskResult)
  | setExitFlag
deriving DecidableEq

/-- The state reached by one protocol operation. -/
def step (s : CoordinatorState) : Op → CoordinatorState
  | Op.submit d => (submit s d).2
  | Op.register w => (register s w).2
  | Op.unregister w => (unregister s w).2
  | Op.getNextTask w => (getNextTask s w).2
  | Op.setTaskResult r => (setTaskResult s r).2
  | Op.setExitFlag => setExitFlag s

/-- One rpc method of the Coordinator service, as declared in the proto. -/
structure RpcMethod where
  rpcName : String
  requestType : String
  responseType : String
deriving DecidableEq

/-- The rpc methods of service Coordinator, transcribed from
slurm_pilot.proto in declaration order. -/
def coordinatorRpcs : List RpcMethod :=
  [⟨"RegisterWorkerProcess", "WorkerProcessID", "Empty"⟩,
   ⟨"UnregisterWorkerProcess", "WorkerProcessID", "Empty"⟩,
   ⟨"GetNextTask", "WorkerProcessID", "TaskAssignment"⟩,
   ⟨"SetTaskResult", "TaskResult", "Empty"⟩]

/-- One field of a proto message: name, scalar or message type, field number. -/
structure ProtoField where
  fieldName : String
  fieldType : String
  fieldNumber : Nat
deriving DecidableEq

/-- Fields of message WorkerProcessID, transcribed from slurm_pilot.proto. -/
def workerProcessIDFields : List ProtoField :=
  [⟨"type", "string", 1⟩,
   ⟨"name", "string", 2⟩,
   ⟨"slurm_job_id", "int64", 3⟩,
   ⟨"hostname", "string", 4⟩,
   ⟨"pid", "int64", 5⟩]

/-- Fields of message TaskDefn, transcribed from slurm_pilot.proto. -/
def taskDefnFields : List ProtoField :=
  [⟨"task_id", "string", 1⟩,
   ⟨"function", "bytes", 2⟩,
   ⟨"args", "bytes", 3⟩,
   ⟨"kwargs", "bytes", 4⟩,
   ⟨"type", "string", 5⟩]

/-- Fields of message TaskAssignment, transcribed from slurm_pilot.proto. -/
def taskAssignmentFields : List ProtoField :=
  [⟨"exit_flag", "bool", 1⟩,
   ⟨"task_available", "bool", 2⟩,
   ⟨"task", "TaskDefn", 3⟩]

/-- Fields of message TaskResult, transcribed from slurm_pilot.proto. -/
def taskResultFields : List ProtoField :=
  [⟨"task_id", "string", 1⟩,
   ⟨"task_success", "bool", 2⟩,
   ⟨"return_", "bytes", 3⟩,
   ⟨"error", "string", 4⟩,
   ⟨"error_id", "string", 5⟩,
   ⟨"process_id", "WorkerProcessID", 6⟩]

/-! Basic lemmas about state lookup and the queue operations. -/

lemma lookupState_nil (tid : String) : lookupState [] tid = none := rfl

lemma lookupState_cons (e : TaskDefn × TaskState) (ts : List (TaskDefn × TaskState))
    (tid : String) :
    lookupState (e :: ts) tid =
      if e.1.task_id = tid then some e.2 else lookupState ts tid := by
  by_cases h : e.1.task_id = tid
  · rw [lookupState, List.find?_cons_of_pos _ (by simp [h]), if_pos h]
    rfl
  · rw [lookupState, List.find?_cons_of_neg _ (by simp [h]), if_neg h]
    rfl

lemma updateTask_nil (tid0 : String) (f : TaskState → TaskState) :
    updateTask tid0 f [] = [] := rfl

lemma updateTask_cons (tid0 : String) (f : TaskState → TaskState)
    (e : TaskDefn × TaskState) (ts : List (TaskDefn × TaskState)) :
    updateTask tid0 f (e :: ts) =
      (if e.1.task_id = tid0 then (e.1, f e.2) else e) :: updateTask tid0 f ts := rfl

lemma lookupState_updateTask (tid0 tid : String) (f : TaskState → TaskState)
    (ts : List (TaskDefn × TaskState)) :
    lookupState (updateTask tid0 f ts) tid =
      if tid = tid0 then (lookupState ts tid).map f else lookupState ts tid := by
  induction ts with
  | nil =>
    by_cases h : tid = tid0 <;> simp [updateTask_nil, lookupState_nil, h]
  | cons e ts ih =>
    rw [updateTask_cons]
    by_cases h0 : e.1.task_id = tid0 <;> by_cases h1 : e.1.task_id = tid
    · have ht : tid = tid0 := by rw [← h1]; exact h0
      simp [lookupState_cons, h0, h1, ht]
    · have ht : ¬(tid = tid0) := fun hEq => h1 (by rw [hEq]; exact h0)
      rw [if_pos h0]
      simp [lookupState_cons, h1, ht, ih]
    · have ht : ¬(tid = tid0) := fun hEq => h0 (h1.trans hEq)
      simp [lookupState_cons, h0, h1, ht]
    · by_cases ht : tid = tid0
      · subst ht
        simp [lookupState_cons, h0, h1, ih]
      · simp [lookupState_cons, h0, h1, ht, ih]

lemma lookupState_mapRequeue (key : String × String)
    (ts : List (TaskDefn × TaskState)) (tid : String) :
    lookupState (ts.map (fun e => (e.1, requeue key e.2))) tid =
      (lookupState ts tid).map (requeue key) := by
  induction ts with
  | nil => simp [lookupState_nil]
  | cons e ts ih =>
    by_cases h : e.1.task_id = tid <;> simp [lookupState_cons, h, ih]

lemma lookupState_append_of_some (ts1 ts2 : List (TaskDefn × TaskState))
    (tid : String) (st : TaskState) (h : lookupState ts1 tid = some st) :
    lookupState (ts1 ++ ts2) tid = some st := by
  induction ts1 with
  | nil => simp [lookupState_nil] at h
  | cons e ts ih =>
    rw [lookupState_cons] at h
    by_cases hc : e.1.task_id = tid
    · rw [if_pos hc] at h
      rw [List.cons_append, lookupState_cons, if_pos hc]
      exact h
    · rw [if_neg hc] at h
      rw [List.cons_append, lookupState_cons, if_neg hc]
      exact ih h

lemma lookupState_append_of_none (ts1 ts2 : List (TaskDefn × TaskState))
    (tid : String) (h : lookupState ts1 tid = none) :
    lookupState (ts1 ++ ts2) tid = lookupState ts2 tid := by
  induction ts1 with
  | nil => simp
  | cons e ts ih =>
    rw [lookupState_cons] at h
    by_cases hc : e.1.task_id = tid
    · rw [if_pos hc] at h
      exact absurd h (by simp)
    · rw [if_neg hc] at h
      rw [List.cons_append, lookupState_cons, if_neg hc]
      exact ih h

lemma findPending_mem (w : WorkerProcessID) (ts : List (TaskDefn × TaskState))
    (d : TaskDefn) (h : findPending w ts = some d) :
    (d, TaskState.pending) ∈ ts ∧ kindMatches w d = true := by
  induction ts with
  | nil => simp [findPending] at h
  | cons e ts ih =>
    rw [findPending] at h
    by_cases hc : e.2 = TaskState.pending ∧ kindMatches w e.1 = true
    · rw [if_pos hc] at h
      injection h with h
      have he : e = (d, TaskState.pending) := Prod.ext h hc.1
      constructor
      · rw [← he]; exact List.mem_cons_self _ _
      · rw [← h]; exact hc.2
    · rw [if_neg hc] at h
      obtain ⟨hm, hk⟩ := ih h
      exact ⟨List.mem_cons_of_mem _ hm, hk⟩

lemma findPending_split (w : WorkerProcessID) (ts : List (TaskDefn × TaskState))
    (d : TaskDefn) (h : findPending w ts = some d) :
    ∃ l1 l2, ts = l1 ++ (d, TaskState.pending) :: l2 ∧
      ∀ e ∈ l1, ¬(e.2 = TaskState.pending ∧ kindMatches w e.1 = true) := by
  induction ts with
  | nil => simp [findPending] at h
  | cons e ts ih =>
    rw [findPending] at h
    by_cases hc : e.2 = TaskState.pending ∧ kindMatches w e.1 = true
    · rw [if_pos hc] at h
      injection h with h
      have he : e = (d, TaskState.pending) := Prod.ext h hc.1
      exact ⟨[], ts, by simp [he], by simp⟩
    · rw [if_neg hc] at h
      obtain ⟨l1, l2, heq, hall⟩ := ih h
      refine ⟨e :: l1, l2, by simp [heq], ?_⟩
      intro x hx
      rcases List.mem_cons.mp hx with hx | hx
      · rw [hx]; exact hc
      · exact hall x hx

lemma findPending_eq_none (w : WorkerProcessID) (ts : List (TaskDefn × TaskState)) :
    findPending w ts = none ↔
      ∀ e ∈ ts, ¬(e.2 = TaskState.pending ∧ kindMatches w e.1 = true) := by
  induction ts with
  | nil => simp [findPending]
  | cons e ts ih =>
    rw [findPending]
    by_cases hc : e.2 = TaskState.pending ∧ kindMatches w e.1 = true
    · rw [if_pos hc]
      simp only [List.mem_cons]
      constructor
      · intro h; exact absurd h (by simp)
      · intro h; exact absurd hc (h e (Or.inl rfl))
    · rw [if_neg hc]
      simp only [List.mem_cons, ih]
      constructor
      · intro h x hx
        rcases hx with hx | hx
        · rw [hx]; exact hc
        · exact h x hx
      · intro h x hx
        exact h x (Or.inr hx)

lemma lookupState_of_mem (ts : List (TaskDefn × TaskState))
    (hnd : (ts.map (fun e => e.1.task_id)).Nodup)
    (d : TaskDefn) (st : TaskState) (h : (d, st) ∈ ts) :
    lookupState ts d.task_id = some st := by
  induction ts with
  | nil => simp at h
  | cons e ts ih =>
    rw [List.map_cons, List.nodup_cons] at hnd
    rcases List.mem_cons.mp h with h | h
    · rw [← h, lookupState_cons, if_pos rfl]
    · have hne : e.1.task_id ≠ d.task_id := by
        intro hEq
        exact hnd.1 (hEq ▸ List.mem_map_of_mem (fun e => e.1.task_id) h)
      rw [lookupState_cons, if_neg hne]
      exact ih hnd.2 h

/-! Characterization of each coordinator operation. -/

lemma register_tasks (s : CoordinatorState) (w : WorkerProcessID) :
    (register s w).2.tasks = s.tasks := by
  rw [register]
  cases h : isRegistered s w <;> simp [h]

lemma register_exit_flag (s : CoordinatorState) (w : WorkerProcessID) :
    (register s w).2.exit_flag = s.exit_flag := by
  rw [register]
  cases h : isRegistered s w <;> simp [h]

lemma unregister_exit_flag (s : CoordinatorState) (w : WorkerProcessID) :
    (unregister s w).2.exit_flag = s.exit_flag := by
  rw [unregister]
  cases h : isRegistered s w <;> simp [h]

lemma unregister_pos (s : CoordinatorState) (w : WorkerProcessID)
    (h : isRegistered s w = true) :
    unregister s w =
      (UnregisterResult.ok,
       ⟨s.workers.filter (fun v => workerKey v != workerKey w),
        s.tasks.map (fun e => (e.1, requeue (workerKey w) e.2)),
        s.exit_flag⟩) := by
  rw [unregister, if_pos h]

lemma unregister_neg (s : CoordinatorState) (w : WorkerProcessID)
    (h : isRegistered s w = false) :
    unregister s w = (UnregisterResult.notRegistered, s) := by
  rw [unregister, if_neg (by simp [h])]

lemma getNextTask_not_registered (s : CoordinatorState) (w : WorkerProcessID)
    (h : isRegistered s w = false) :
    getNextTask s w = (GetNextTaskResult.notRegistered, s) := by
  rw [getNextTask, if_neg (by simp [h])]

lemma getNextTask_exit (s : CoordinatorState) (w : WorkerProcessID)
    (hr : isRegistered s w = true) (he : s.exit_flag = true) :
    getNextTask s w = (GetNextTaskResult.assignment ⟨true, false, none⟩, s) := by
  rw [getNextTask, if_pos hr, if_pos he]

lemma getNextTask_found (s : CoordinatorState) (w : WorkerProcessID) (d : TaskDefn)
    (hr : isRegistered s w = true) (he : s.exit_flag = false)
    (hf : findPending w s.tasks = some d) :
    getNextTask s w =
      (GetNextTaskResult.assignment ⟨false, true, some d⟩,
       ⟨s.workers,
        updateTask d.task_id (fun _ => TaskState.assigned (workerKey w)) s.tasks,
        s.exit_flag⟩) := by
  rw [getNextTask, if_pos hr, if_neg (by simp [he]), hf]

lemma getNextTask_none (s : CoordinatorState) (w : WorkerProcessID)
    (hr : isRegistered s w = true) (he : s.exit_flag = false)
    (hf : findPending w s.tasks = none) :
    getNextTask s w = (GetNextTaskResult.assignment ⟨false, false, none⟩, s) := by
  rw [getNextTask, if_pos hr, if_neg (by simp [he]), hf]

lemma setTaskResult_unknown (s : CoordinatorState) (r : TaskResult)
    (h : lookupState s.tasks r.task_id = none) :
    setTaskResult s r = (SetTaskResultStatus.unknownTaskId, s) := by
  rw [setTaskResult, h]

lemma setTaskResult_assigned (s : CoordinatorState) (r : TaskResult)
    (k : String × String)
    (h : lookupState s.tasks r.task_id = some (TaskState.assigned k)) :
    setTaskResult s r =
      (SetTaskResultStatus.ok,
       ⟨s.workers,
        updateTask r.task_id
          (fun _ => if r.task_success then TaskState.done else TaskState.failed)
          s.tasks,
        s.exit_flag⟩) := by
  rw [setTaskResult, h]

lemma setTaskResult_not_assigned (s : CoordinatorState) (r : TaskResult)
    (st : TaskState) (h : lookupState s.tasks r.task_id = some st)
    (hst : ∀ k, st ≠ TaskState.assigned k) :
    setTaskResult s r = (SetTaskResultStatus.notAssigned, s) := by
  rw [setTaskResult, h]
  cases st with
  | pending => rfl
  | assigned k => exact absurd rfl (hst k)
  | done => rfl
  | failed => rfl

lemma submit_dup (s : CoordinatorState) (d : TaskDefn) (st : TaskState)
    (h : lookupState s.tasks d.task_id = some st) :
    submit s d = (SubmitResult.duplicateTaskId, s) := by
  rw [submit, h]

lemma submit_new (s : CoordinatorState) (d : TaskDefn)
    (h : lookupState s.tasks d.task_id = none) :
    submit s d =
      (SubmitResult.ok, ⟨s.workers, s.tasks ++ [(d, TaskState.pending)], s.exit_flag⟩) := by
  rw [submit, h]

/-! How each operation changes the state of one task. -/

lemma taskState_register (s : CoordinatorState) (w : WorkerProcessID) (tid : String) :
    taskState (register s w).2 tid = taskState s tid := by
  simp only [taskState, register_tasks]

lemma taskState_setExitFlag (s : CoordinatorState) (tid : String) :
    taskState (setExitFlag s) tid = taskState s tid := rfl

lemma taskState_unregister (s : CoordinatorState) (w : WorkerProcessID) (tid : String) :
    taskState (unregister s w).2 tid = taskState s tid ∨
    taskState (unregister s w).2 tid = (taskState s tid).map (requeue (workerKey w)) := by
  cases h : isRegistered s w
  · left
    rw [unregister_neg s w h]
  · right
    rw [unregister_pos s w h]
    simp only [taskState]
    exact lookupState_mapRequeue _ _ _

lemma taskState_submit_of_some (s : CoordinatorState) (d : TaskDefn) (tid : String)
    (st : TaskState) (h : taskState s tid = some st) :
    taskState (submit s d).2 tid = some st := by
  simp only [taskState] at h ⊢
  cases hl : lookupState s.tasks d.task_id with
  | none =>
    rw [submit_new s d hl]
    exact lookupState_append_of_some _ _ _ _ h
  | some st0 =>
    rw [submit_dup s d st0 hl]
    exact h

lemma taskState_submit_of_none (s : CoordinatorState) (d : TaskDefn) (tid : String)
    (h : taskState s tid = none) :
    taskState (submit s d).2 tid = none ∨
    taskState (submit s d).2 tid = some TaskState.pending := by
  simp only [taskState] at h ⊢
  cases hl : lookupState s.tasks d.task_id with
  | none =>
    rw [submit_new s d hl]
    dsimp only
    rw [lookupState_append_of_none _ _ _ h]
    by_cases hd : d.task_id = tid
    · right
      rw [lookupState_cons, if_pos hd]
    · left
      rw [lookupState_cons, if_neg hd, lookupState_nil]
  | some st0 =>
    left
    rw [submit_dup s d st0 hl]
    exact h

lemma taskState_getNextTask (s : CoordinatorState) (w : WorkerProcessID) (tid : String)
    (hu : uniqueTaskIds s) :
    taskState (getNextTask s w).2 tid = taskState s tid ∨
    (taskState s tid = some TaskState.pending ∧
     taskState (getNextTask s w).2 tid = some (TaskState.assigned (workerKey w))) := by
  cases hr : isRegistered s w
  · left
    rw [getNextTask_not_registered s w hr]
  · cases he : s.exit_flag
    · cases hf : findPending w s.tasks with
      | none =>
        left
        rw [getNextTask_none s w hr he hf]
      | some d =>
        rw [getNextTask_found s w d hr he hf]
        obtain ⟨hm, _⟩ := findPending_mem w s.tasks d hf
        have hp : lookupState s.tasks d.task_id = some TaskState.pending :=
          lookupState_of_mem s.tasks hu d _ hm
        by_cases hd : tid = d.task_id
        · right
          constructor
          · simp only [taskState]
            rw [hd]
            exact hp
          · simp only [taskState]
            rw [lookupState_updateTask, if_pos hd, hd, hp]
            rfl
        · left
          simp only [taskState]
          rw [lookupState_updateTask, if_neg hd]
    · left
      rw [getNextTask_exit s w hr he]

lemma taskState_setTaskResult (s : CoordinatorState) (r : TaskResult) (tid : String) :
    taskState (setTaskResult s r).2 tid = taskState s tid ∨
    ((∃ k, taskState s tid = some (TaskState.assigned k)) ∧
     taskState (setTaskResult s r).2 tid =
       some (if r.task_success then TaskState.done else TaskState.failed)) := by
  cases hl : lookupState s.tasks r.task_id with
  | none =>
    left
    rw [setTaskResult_unknown s r hl]
  | some st =>
    cases st with
    | pending =>
      left
      rw [setTaskResult_not_assigned s r _ hl (fun k h => TaskState.noConfusion h)]
    | done =>
      left
      rw [setTaskResult_not_assigned s r _ hl (fun k h => TaskState.noConfusion h)]
    | failed =>
      left
      rw [setTaskResult_not_assigned s r _ hl (fun k h => TaskState.noConfusion h)]
    | assigned k =>
      rw [setTaskResult_assigned s r k hl]
      by_cases hd : tid = r.task_id
      · right
        refine ⟨⟨k, ?_⟩, ?_⟩
        · simp only [taskState]
          rw [hd]
          exact hl
        · simp only [taskState]
          rw [lookupState_updateTask, if_pos hd, hd, hl]
          rfl
      · left
        simp only [taskState]
        rw [lookupState_updateTask, if_neg hd]

/-! How requeue acts on each lifecycle state. -/

lemma requeue_pending (key : String × String) :
    requeue key TaskState.pending = TaskState.pending := rfl

lemma requeue_done (key : String × String) :
    requeue key TaskState.done = TaskState.done := rfl

lemma requeue_failed (key : String × String) :
    requeue key TaskState.failed = TaskState.failed := rfl

lemma requeue_assigned (key k : String × String) :
    requeue key (TaskState.assigned k) =
      if k = key then TaskState.pending else TaskState.assigned k := rfl

/-! The exit flag is untouched by every operation except setExitFlag. -/

lemma submit_exit_flag (s : CoordinatorState) (d : TaskDefn) :
    (submit s d).2.exit_flag = s.exit_flag := by
  cases hl : lookupState s.tasks d.task_id with
  | none => rw [submit_new s d hl]
  | some st => rw [submit_dup s d st hl]

lemma getNextTask_exit_flag (s : CoordinatorState) (w : WorkerProcessID) :
    (getNextTask s w).2.exit_flag = s.exit_flag := by
  cases hr : isRegistered s w
  · rw [getNextTask_not_registered s w hr]
  · cases he : s.exit_flag
    · cases hf : findPending w s.tasks with
      | none => rw [getNextTask_none s w hr he hf]; exact he
      | some d => rw [getNextTask_found s w d hr he hf]; exact he
    · rw [getNextTask_exit s w hr he]; exact he

lemma setTaskResult_exit_flag (s : CoordinatorState) (r : TaskResult) :
    (setTaskResult s r).2.exit_flag = s.exit_flag := by
  cases hl : lookupState s.tasks r.task_id with
  | none => rw [setTaskResult_unknown s r hl]
  | some st =>
    cases st with
    | pending =>
      rw [setTaskResult_not_assigned s r _ hl (fun k h => TaskState.noConfusion h)]
    | assigned k => rw [setTaskResult_assigned s r k hl]
    | done =>
      rw [setTaskResult_not_assigned s r _ hl (fun k h => TaskState.noConfusion h)]
    | failed =>
      rw [setTaskResult_not_assigned s r _ hl (fun k h => TaskState.noConfusion h)]

/-! Sample workers, tasks and coordinator states used to instantiate the
verified properties on concrete inputs. -/

/-- Sample worker one. -/
def wA : WorkerProcessID := ⟨"worker", "w1", 1, "hostA", 100⟩

/-- Sample worker two, same kind, different name, host and pid. -/
def wB : WorkerProcessID := ⟨"worker", "w2", 1, "hostB", 200⟩

/-- Sample task with a lexically large task_id. -/
def tZ : TaskDefn := ⟨"zzz", [], [], [], ""⟩

/-- Sample task with a lexically small task_id. -/
def tA : TaskDefn := ⟨"aaa", [], [], [], ""⟩

/-- Sample state: tZ is ASSIGNED to wA and tA is PENDING; wA and wB ACTIVE. -/
def sAssigned : CoordinatorState :=
  ⟨[wA, wB], [(tZ, TaskState.assigned (workerKey wA)), (tA, TaskState.pending)], false⟩

/-- Sample state: tZ submitted before tA, both PENDING; wA and wB ACTIVE. -/
def sFifo : CoordinatorState :=
  ⟨[wA, wB], [(tZ, TaskState.pending), (tA, TaskState.pending)], false⟩

/-- Sample state: tZ is DONE; wA ACTIVE. -/
def sDone : CoordinatorState := ⟨[wA], [(tZ, TaskState.done)], false⟩

/-! The claims. -/

/-- C1: while a task is ASSIGNED to some worker, no GetNextTask call returns
that task to any caller — once handed out, the task is invisible to every
GetNextTask until it is requeued or completed. -/
theorem getNextTask_mutual_exclusion (s : CoordinatorState) (w : WorkerProcessID)
    (tid : String) (k : String × String) (a : TaskAssignment) (s2 : CoordinatorState)
    (hu : uniqueTaskIds s)
    (h : taskState s tid = some (TaskState.assigned k))
    (hg : getNextTask s w = (GetNextTaskResult.assignment a, s2)) :
    a.task.map (fun d => d.task_id) ≠ some tid := by
  cases hr : isRegistered s w
  · rw [getNextTask_not_registered s w hr] at hg
    injection hg with h1 h2
    exact GetNextTaskResult.noConfusion h1
  · cases he : s.exit_flag
    · cases hf : findPending w s.tasks with
      | none =>
        rw [getNextTask_none s w hr he hf] at hg
        injection hg with h1 h2
        injection h1 with h1
        rw [← h1]
        simp
      | some d =>
        rw [getNextTask_found s w d hr he hf] at hg
        injection hg with h1 h2
        injection h1 with h1
        rw [← h1]
        show some d.task_id ≠ some tid
        intro hEq
        injection hEq with hEq
        obtain ⟨hm, _⟩ := findPending_mem w s.tasks d hf
        have hp := lookupState_of_mem s.tasks hu d _ hm
        rw [hEq] at hp
        simp only [taskState] at h
        rw [hp] at h
        injection h with h
        exact TaskState.noConfusion h
    · rw [getNextTask_exit s w hr he] at hg
      injection hg with h1 h2
      injection h1 with h1
      rw [← h1]
      simp

/-- Witness for C1: in sAssigned the task zzz is ASSIGNED to wA, and wB's
GetNextTask call returns the pending task aaa, not zzz. -/
theorem getNextTask_mutual_exclusion_witness :
    (TaskAssignment.mk false true (some tA)).task.map (fun d => d.task_id) ≠ some "zzz" :=
  getNextTask_mutual_exclusion sAssigned wB "zzz" (workerKey wA)
    ⟨false, true, some tA⟩ (getNextTask sAssigned wB).2
    (by decide) (by decide) (by decide)

/-- C4: the exit flag is monotonic — no operation ever resets it — and once
it is set, every GetNextTask call from every registered worker returns a
TaskAssignment with exit_flag true and no task, whatever tasks are pending. -/
theorem exit_flag_monotone (s : CoordinatorState) (w : WorkerProcessID) :
    (∀ op : Op, s.exit_flag = true → (step s op).exit_flag = true) ∧
    (s.exit_flag = true → isRegistered s w = true →
       getNextTask s w = (GetNextTaskResult.assignment ⟨true, false, none⟩, s)) := by
  constructor
  · intro op he
    cases op with
    | submit d => rw [step, submit_exit_flag]; exact he
    | register w2 => rw [step, register_exit_flag]; exact he
    | unregister w2 => rw [step, unregister_exit_flag]; exact he
    | getNextTask w2 => rw [step, getNextTask_exit_flag]; exact he
    | setTaskResult r => rw [step, setTaskResult_exit_flag]; exact he
    | setExitFlag => rfl
  · intro he hr
    exact getNextTask_exit s w hr he

/-- C2: per-task lifecycle over any single operation — a task appears only in
PENDING; it leaves PENDING only to ASSIGNED and only through GetNextTask; an
ASSIGNED task either keeps its holder, is requeued by an unregistration, or
reaches DONE/FAILED through SetTaskResult (so there is no PENDING to DONE
shortcut); DONE and FAILED are absorbing, hence a task reaches at most one of
them. -/
theorem task_lifecycle (s : CoordinatorState) (op : Op) (tid : String)
    (hu : uniqueTaskIds s) :
    (taskState s tid = none →
       ∀ st, taskState (step s op) tid = some st → st = TaskState.pending) ∧
    (taskState s tid = some TaskState.pending →
       ∀ st, taskState (step s op) tid = some st →
         st = TaskState.pending ∨
         ∃ w, st = TaskState.assigned (workerKey w) ∧ op = Op.getNextTask w) ∧
    (∀ k, taskState s tid = some (TaskState.assigned k) →
       ∀ st, taskState (step s op) tid = some st →
         st = TaskState.assigned k ∨
         (st = TaskState.pending ∧ ∃ w, op = Op.unregister w) ∨
         ((st = TaskState.done ∨ st = TaskState.failed) ∧
            ∃ r, op = Op.setTaskResult r)) ∧
    (taskState s tid = some TaskState.done →
       taskState (step s op) tid = some TaskState.done) ∧
    (taskState s tid = some TaskState.failed →
       taskState (step s op) tid = some TaskState.failed) := by
  refine ⟨?_, ?_, ?_, ?_, ?_⟩
  · intro h st hst
    cases op with
    | submit d =>
      simp only [step] at hst
      rcases taskState_submit_of_none s d tid h with h2 | h2 <;> rw [h2] at hst
      · exact Option.noConfusion hst
      · injection hst with hst
        exact hst.symm
    | register w =>
      simp only [step, taskState_register] at hst
      rw [h] at hst
      exact Option.noConfusion hst
    | unregister w =>
      simp only [step] at hst
      rcases taskState_unregister s w tid with h2 | h2 <;> rw [h2, h] at hst <;>
        exact Option.noConfusion hst
    | getNextTask w =>
      simp only [step] at hst
      rcases taskState_getNextTask s w tid hu with h2 | ⟨h2, _⟩
      · rw [h2, h] at hst
        exact Option.noConfusion hst
      · rw [h] at h2
        exact Option.noConfusion h2
    | setTaskResult r =>
      simp only [step] at hst
      rcases taskState_setTaskResult s r tid with h2 | ⟨⟨k, h2⟩, _⟩
      · rw [h2, h] at hst
        exact Option.noConfusion hst
      · rw [h] at h2
        exact Option.noConfusion h2
    | setExitFlag =>
      simp only [step, taskState_setExitFlag] at hst
      rw [h] at hst
      exact Option.noConfusion hst
  · intro h st hst
    cases op with
    | submit d =>
      simp only [step] at hst
      rw [taskState_submit_of_some s d tid _ h] at hst
      injection hst with hst
      exact Or.inl hst.symm
    | register w =>
      simp only [step, taskState_register] at hst
      rw [h] at hst
      injection hst with hst
      exact Or.inl hst.symm
    | unregister w =>
      simp only [step] at hst
      rcases taskState_unregister s w tid with h2 | h2 <;> rw [h2, h] at hst
      · injection hst with hst
        exact Or.inl hst.symm
      · simp only [Option.map] at hst
        rw [requeue_pending] at hst
        injection hst with hst
        exact Or.inl hst.symm
    | getNextTask w =>
      simp only [step] at hst
      rcases taskState_getNextTask s w tid hu with h2 | ⟨_, h2⟩ <;> rw [h2] at hst
      · rw [h] at hst
        injection hst with hst
        exact Or.inl hst.symm
      · injection hst with hst
        exact Or.inr ⟨w, hst.symm, rfl⟩
    | setTaskResult r =>
      simp only [step] at hst
      rcases taskState_setTaskResult s r tid with h2 | ⟨⟨k, h2⟩, _⟩
      · rw [h2, h] at hst
        injection hst with hst
        exact Or.inl hst.symm
      · rw [h] at h2
        injection h2 with h2
        exact TaskState.noConfusion h2
    | setExitFlag =>
      simp only [step, taskState_setExitFlag] at hst
      rw [h] at hst
      injection hst with hst
      exact Or.inl hst.symm
  · intro k h st hst
    cases op with
    | submit d =>
      simp only [step] at hst
      rw [taskState_submit_of_some s d tid _ h] at hst
      injection hst with hst
      exact Or.inl hst.symm
    | register w =>
      simp only [step, taskState_register] at hst
      rw [h] at hst
      injection hst with hst
      exact Or.inl hst.symm
    | unregister w =>
      simp only [step] at hst
      rcases taskState_unregister s w tid with h2 | h2 <;> rw [h2, h] at hst
      · injection hst with hst
        exact Or.inl hst.symm
      · simp only [Option.map] at hst
        rw [requeue_assigned] at hst
        by_cases hk : k = workerKey w
        · rw [if_pos hk] at hst
          injection hst with hst
          exact Or.inr (Or.inl ⟨hst.symm, w, rfl⟩)
        · rw [if_neg hk] at hst
          injection hst with hst
          exact Or.inl hst.symm
    | getNextTask w =>
      simp only [step] at hst
      rcases taskState_getNextTask s w tid hu with h2 | ⟨h2, _⟩
      · rw [h2, h] at hst
        injection hst with hst
        exact Or.inl hst.symm
      · rw [h] at h2
        injection h2 with h2
        exact TaskState.noConfusion h2
    | setTaskResult r =>
      simp only [step] at hst
      rcases taskState_setTaskResult s r tid with h2 | ⟨_, h2⟩ <;> rw [h2] at hst
      · rw [h] at hst
        injection hst with hst
        exact Or.inl hst.symm
      · injection hst with hst
        refine Or.inr (Or.inr ⟨?_, r, rfl⟩)
        cases hs : r.task_success <;> rw [hs] at hst
        · right
          rw [← hst]
          rfl
        · left
          rw [← hst]
          rfl
    | setExitFlag =>
      simp only [step, taskState_setExitFlag] at hst
      rw [h] at hst
      injection hst with hst
      exact Or.inl hst.symm
  · intro h
    cases op with
    | submit d =>
      simp only [step]
      exact taskState_submit_of_some s d tid _ h
    | register w =>
      simp only [step, taskState_register]
      exact h
    | unregister w =>
      simp only [step]
      rcases taskState_unregister s w tid with h2 | h2 <;> rw [h2, h]
      rfl
    | getNextTask w =>
      simp only [step]
      rcases taskState_getNextTask s w tid hu with h2 | ⟨h2, _⟩
      · rw [h2, h]
      · rw [h] at h2
        injection h2 with h2
        exact TaskState.noConfusion h2
    | setTaskResult r =>
      simp only [step]
      rcases taskState_setTaskResult s r tid with h2 | ⟨⟨k, h2⟩, _⟩
      · rw [h2, h]
      · rw [h] at h2
        injection h2 with h2
        exact TaskState.noConfusion h2
    | setExitFlag =>
      simp only [step, taskState_setExitFlag]
      exact h
  · intro h
    cases op with
    | submit d =>
      simp only [step]
      exact taskState_submit_of_some s d tid _ h
    | register w =>
      simp only [step, taskState_register]
      exact h
    | unregister w =>
      simp only [step]
      rcases taskState_unregister s w tid with h2 | h2 <;> rw [h2, h]
      rfl
    | getNextTask w =>
      simp only [step]
      rcases taskState_getNextTask s w tid hu with h2 | ⟨h2, _⟩
      · rw [h2, h]
      · rw [h] at h2
        injection h2 with h2
        exact TaskState.noConfusion h2
    | setTaskResult r =>
      simp only [step]
      rcases taskState_setTaskResult s r tid with h2 | ⟨⟨k, h2⟩, _⟩
      · rw [h2, h]
      · rw [h] at h2
        injection h2 with h2
        exact TaskState.noConfusion h2
    | setExitFlag =>
      simp only [step, taskState_setExitFlag]
      exact h

/-- Witness for C2: in sDone the task zzz is DONE, and a GetNextTask step
leaves it DONE. -/
theorem task_lifecycle_witness :
    taskState (step sDone (Op.getNextTask wA)) "zzz" = some TaskState.done :=
  (task_lifecycle sDone (Op.getNextTask wA) "zzz" (by decide)).2.2.2.1 (by decide)

/-- C3: GetNextTask hands out the earliest-submitted matching PENDING task:
whenever a call returns task d, the submission-ordered task list splits as
l1 ++ (d, PENDING) :: l2 with no matching PENDING task before d (strict FIFO
by submission order, never by task_id lexical order), and unregistration
keeps the submission order of the queue, so a requeued task keeps its FIFO
position among PENDING tasks. -/
theorem getNextTask_fifo (s : CoordinatorState) (w : WorkerProcessID)
    (d : TaskDefn) (a : TaskAssignment) (s2 : CoordinatorState)
    (hg : getNextTask s w = (GetNextTaskResult.assignment a, s2))
    (ht : a.task = some d) :
    kindMatches w d = true ∧
    (∃ l1 l2, s.tasks = l1 ++ (d, TaskState.pending) :: l2 ∧
       ∀ e ∈ l1, ¬(e.2 = TaskState.pending ∧ kindMatches w e.1 = true)) ∧
    (∀ w2, ((unregister s w2).2.tasks.map (fun e => e.1)) =
       s.tasks.map (fun e => e.1)) := by
  have horder : ∀ w2, ((unregister s w2).2.tasks.map (fun e => e.1)) =
      s.tasks.map (fun e => e.1) := by
    intro w2
    cases hr2 : isRegistered s w2
    · rw [unregister_neg s w2 hr2]
    · rw [unregister_pos s w2 hr2]
      simp [List.map_map]
  cases hr : isRegistered s w
  · rw [getNextTask_not_registered s w hr] at hg
    injection hg with h1 h2
    exact GetNextTaskResult.noConfusion h1
  · cases he : s.exit_flag
    · cases hf : findPending w s.tasks with
      | none =>
        rw [getNextTask_none s w hr he hf] at hg
        injection hg with h1 h2
        injection h1 with h1
        rw [← h1] at ht
        exact Option.noConfusion ht
      | some d0 =>
        rw [getNextTask_found s w d0 hr he hf] at hg
        injection hg with h1 h2
        injection h1 with h1
        rw [← h1] at ht
        have ht2 : some d0 = some d := ht
        injection ht2 with hd
        rw [hd] at hf
        obtain ⟨hm, hk⟩ := findPending_mem w s.tasks d hf
        exact ⟨hk, findPending_split w s.tasks d hf, horder⟩
    · rw [getNextTask_exit s w hr he] at hg
      injection hg with h1 h2
      injection h1 with h1
      rw [← h1] at ht
      exact Option.noConfusion ht

/-- Witness for C3: in sFifo the task zzz was submitted before aaa, and wA's
GetNextTask call returns zzz, the FIFO head, although aaa precedes it in
lexical task_id order; any unregistration preserves the queue order. -/
theorem getNextTask_fifo_witness :
    kindMatches wA tZ = true ∧
    (∃ l1 l2, sFifo.tasks = l1 ++ (tZ, TaskState.pending) :: l2 ∧
       ∀ e ∈ l1, ¬(e.2 = TaskState.pending ∧ kindMatches wA e.1 = true)) ∧
    (∀ w2, ((unregister sFifo w2).2.tasks.map (fun e => e.1)) =
       sFifo.tasks.map (fun e => e.1)) :=
  getNextTask_fifo sFifo wA tZ ⟨false, true, some tZ⟩ (getNextTask sFifo wA).2
    (by decide) rfl

/-- Helper for C5: after filtering out every worker sharing the key, a lookup
for that key fails. -/
lemma any_filter_key_eq_false (l : List WorkerProcessID) (w : WorkerProcessID) :
    ((l.filter (fun v => workerKey v != workerKey w)).any
      (fun v => workerKey v == workerKey w)) = false := by
  induction l with
  | nil => rfl
  | cons v l ih =>
    by_cases h : workerKey v = workerKey w
    · simp only [List.filter_cons]
      rw [if_neg (by simp [h])]
      exact ih
    · simp only [List.filter_cons]
      rw [if_pos (by simp [h])]
      simp only [List.any_cons, ih]
      simp [h]

/-- C5: unregistering a registered worker succeeds, removes its entry, turns
every task ASSIGNED to it back to PENDING while tasks ASSIGNED to other
workers stay ASSIGNED to them, and a second unregistration then yields
NotRegistered; unregistering an absent worker yields NotRegistered with the
state unchanged. -/
theorem unregister_spec (s : CoordinatorState) (w : WorkerProcessID) :
    (isRegistered s w = true →
       (unregister s w).1 = UnregisterResult.ok ∧
       isRegistered (unregister s w).2 w = false ∧
       (∀ tid, taskState s tid = some (TaskState.assigned (workerKey w)) →
          taskState (unregister s w).2 tid = some TaskState.pending) ∧
       (∀ tid k, taskState s tid = some (TaskState.assigned k) →
          k ≠ workerKey w →
          taskState (unregister s w).2 tid = some (TaskState.assigned k)) ∧
       unregister (unregister s w).2 w =
         (UnregisterResult.notRegistered, (unregister s w).2)) ∧
    (isRegistered s w = false →
       unregister s w = (UnregisterResult.notRegistered, s)) := by
  constructor
  · intro hr
    have hafter : isRegistered (unregister s w).2 w = false := by
      rw [unregister_pos s w hr]
      simp only [isRegistered]
      exact any_filter_key_eq_false s.workers w
    refine ⟨by rw [unregister_pos s w hr], hafter, ?_, ?_,
      unregister_neg (unregister s w).2 w hafter⟩
    · intro tid htid
      rw [unregister_pos s w hr]
      simp only [taskState] at htid ⊢
      rw [lookupState_mapRequeue, htid]
      simp only [Option.map]
      rw [requeue_assigned, if_pos rfl]
    · intro tid k htid hk
      rw [unregister_pos s w hr]
      simp only [taskState] at htid ⊢
      rw [lookupState_mapRequeue, htid]
      simp only [Option.map]
      rw [requeue_assigned, if_neg hk]
  · exact unregister_neg s w

/-- C6: for a GetNextTask call from an ACTIVE worker: if the exit flag is set
the response is exit_flag=true with no task; else if a matching PENDING task
exists, exactly one such task moves to ASSIGNED for the caller and is returned
with task_available=true, all other tasks unchanged; else the response is
task_available=false and the state is unchanged (the call never blocks). -/
theorem getNextTask_spec (s : CoordinatorState) (w : WorkerProcessID)
    (hreg : isRegistered s w = true) (hu : uniqueTaskIds s) :
    (s.exit_flag = true →
       getNextTask s w = (GetNextTaskResult.assignment ⟨true, false, none⟩, s)) ∧
    (s.exit_flag = false →
       (∃ e ∈ s.tasks, e.2 = TaskState.pending ∧ kindMatches w e.1 = true) →
       ∃ d, (getNextTask s w).1 = GetNextTaskResult.assignment ⟨false, true, some d⟩ ∧
         taskState s d.task_id = some TaskState.pending ∧
         taskState (getNextTask s w).2 d.task_id =
           some (TaskState.assigned (workerKey w)) ∧
         (∀ tid, tid ≠ d.task_id →
            taskState (getNextTask s w).2 tid = taskState s tid)) ∧
    (s.exit_flag = false →
       (∀ e ∈ s.tasks, ¬(e.2 = TaskState.pending ∧ kindMatches w e.1 = true)) →
       getNextTask s w = (GetNextTaskResult.assignment ⟨false, false, none⟩, s)) := by
  refine ⟨fun he => getNextTask_exit s w hreg he, ?_, ?_⟩
  · intro he hex
    cases hf : findPending w s.tasks with
    | none =>
      exfalso
      obtain ⟨e, hme, hpe⟩ := hex
      exact (findPending_eq_none w s.tasks).mp hf e hme hpe
    | some d =>
      obtain ⟨hm, _⟩ := findPending_mem w s.tasks d hf
      refine ⟨d, ?_, ?_, ?_, ?_⟩
      · rw [getNextTask_found s w d hreg he hf]
      · simp only [taskState]
        exact lookupState_of_mem s.tasks hu d _ hm
      · rw [getNextTask_found s w d hreg he hf]
        simp only [taskState]
        rw [lookupState_updateTask, if_pos rfl, lookupState_of_mem s.tasks hu d _ hm]
        rfl
      · intro tid htid
        rw [getNextTask_found s w d hreg he hf]
        simp only [taskState]
        rw [lookupState_updateTask, if_neg htid]
  · intro he hnone
    exact getNextTask_none s w hreg he ((findPending_eq_none w s.tasks).mpr hnone)

/-- Witness for C6 at sFifo and wA: the exit branch, the assignment branch and
the no-task branch of the GetNextTask contract, instantiated. -/
theorem getNextTask_spec_witness :
    (sFifo.exit_flag = true →
       getNextTask sFifo wA = (GetNextTaskResult.assignment ⟨true, false, none⟩, sFifo)) ∧
    (sFifo.exit_flag = false →
       (∃ e ∈ sFifo.tasks, e.2 = TaskState.pending ∧ kindMatches wA e.1 = true) →
       ∃ d, (getNextTask sFifo wA).1 =
           GetNextTaskResult.assignment ⟨false, true, some d⟩ ∧
         taskState sFifo d.task_id = some TaskState.pending ∧
         taskState (getNextTask sFifo wA).2 d.task_id =
           some (TaskState.assigned (workerKey wA)) ∧
         (∀ tid, tid ≠ d.task_id →
            taskState (getNextTask sFifo wA).2 tid = taskState sFifo tid)) ∧
    (sFifo.exit_flag = false →
       (∀ e ∈ sFifo.tasks, ¬(e.2 = TaskState.pending ∧ kindMatches wA e.1 = true)) →
       getNextTask sFifo wA = (GetNextTaskResult.assignment ⟨false, false, none⟩, sFifo)) :=
  getNextTask_spec sFifo wA (by decide) (by decide)

/-- C7: SetTaskResult moves a currently ASSIGNED task to DONE when the result
reports success and to FAILED otherwise, leaving every other task, the worker
registry and the exit flag unchanged; a result for an unknown task_id fails
softly with UnknownTaskId and one for a task not currently ASSIGNED with
NotAssigned, both leaving the state unchanged. -/
theorem setTaskResult_spec (s : CoordinatorState) (r : TaskResult) :
    (taskState s r.task_id = none →
       setTaskResult s r = (SetTaskResultStatus.unknownTaskId, s)) ∧
    (∀ k, taskState s r.task_id = some (TaskState.assigned k) →
       (setTaskResult s r).1 = SetTaskResultStatus.ok ∧
       taskState (setTaskResult s r).2 r.task_id =
         some (if r.task_success then TaskState.done else TaskState.failed) ∧
       (∀ tid, tid ≠ r.task_id →
          taskState (setTaskResult s r).2 tid = taskState s tid) ∧
       (setTaskResult s r).2.workers = s.workers ∧
       (setTaskResult s r).2.exit_flag = s.exit_flag) ∧
    (∀ st, taskState s r.task_id = some st →
       (∀ k, st ≠ TaskState.assigned k) →
       setTaskResult s r = (SetTaskResultStatus.notAssigned, s)) := by
  refine ⟨?_, ?_, ?_⟩
  · intro h
    simp only [taskState] at h
    exact setTaskResult_unknown s r h
  · intro k h
    simp only [taskState] at h
    rw [setTaskResult_assigned s r k h]
    refine ⟨rfl, ?_, ?_, rfl, rfl⟩
    · simp only [taskState]
      rw [lookupState_updateTask, if_pos rfl, h]
      rfl
    · intro tid htid
      simp only [taskState]
      rw [lookupState_updateTask, if_neg htid]
  · intro st h hst
    simp only [taskState] at h
    exact setTaskResult_not_assigned s r st h hst

/-- C8: RegisterWorkerProcess answers AlreadyRegistered exactly when an ACTIVE
worker with the same (kind, name) key exists — regardless of hostname or pid —
leaving the state unchanged; when no such worker exists it inserts the caller,
which is then registered and eligible for assignments. -/
theorem register_spec (s : CoordinatorState) (w : WorkerProcessID) :
    ((register s w).1 = RegisterResult.alreadyRegistered ↔
       ∃ v ∈ s.workers, workerKey v = workerKey w) ∧
    ((register s w).1 = RegisterResult.alreadyRegistered → (register s w).2 = s) ∧
    ((∀ v ∈ s.workers, workerKey v ≠ workerKey w) →
       register s w = (RegisterResult.ok, ⟨s.workers ++ [w], s.tasks, s.exit_flag⟩) ∧
       isRegistered (register s w).2 w = true) := by
  have hiff : isRegistered s w = true ↔ ∃ v ∈ s.workers, workerKey v = workerKey w := by
    simp [isRegistered, List.any_eq_true]
  refine ⟨?_, ?_, ?_⟩
  · cases hr : isRegistered s w
    · rw [register, if_neg (by simp [hr])]
      constructor
      · intro h
        exact absurd h (by simp)
      · intro hex
        exact absurd (hiff.mpr hex) (by simp [hr])
    · rw [register, if_pos hr]
      exact ⟨fun _ => hiff.mp hr, fun _ => rfl⟩
  · cases hr : isRegistered s w
    · rw [register, if_neg (by simp [hr])]
      intro h
      exact absurd h (by simp)
    · rw [register, if_pos hr]
      intro _
      rfl
  · intro hall
    have hr : isRegistered s w = false := by
      cases hr2 : isRegistered s w
      · rfl
      · obtain ⟨v, hv, hk⟩ := hiff.mp hr2
        exact absurd hk (hall v hv)
    refine ⟨by rw [register, if_neg (by simp [hr])], ?_⟩
    rw [register, if_neg (by simp [hr])]
    simp [isRegistered, List.any_append]

/-- C9: the Coordinator rpc surface is exactly four operations with these
request and response message types, and GetNextTask's TaskAssignment response
carries exit_flag, task_available and task. -/
theorem coordinator_rpc_surface :
    coordinatorRpcs.length = 4 ∧
    coordinatorRpcs.map (fun m => (m.rpcName, m.requestType, m.responseType)) =
      [("RegisterWorkerProcess", "WorkerProcessID", "Empty"),
       ("UnregisterWorkerProcess", "WorkerProcessID", "Empty"),
       ("GetNextTask", "WorkerProcessID", "TaskAssignment"),
       ("SetTaskResult", "TaskResult", "Empty")] ∧
    taskAssignmentFields.map (fun f => f.fieldName) =
      ["exit_flag", "task_available", "task"] :=
  ⟨rfl, rfl, rfl⟩

/-- C10 as stated is false: the proto does not name the WorkerProcessID fields
kind and batch_job_id, nor the TaskResult fields success and return_value. -/
theorem proto_field_names_counterexample :
    ¬(workerProcessIDFields.map (fun f => f.fieldName) =
        ["kind", "name", "batch_job_id", "hostname", "pid"] ∧
      taskResultFields.map (fun f => f.fieldName) =
        ["task_id", "success", "return_value", "error", "error_id", "process_id"]) := by
  intro h
  exact absurd h.1 (by decide)

/-- C10 amended: the wire-schema field names are type, name, slurm_job_id,
hostname, pid for WorkerProcessID and task_id, task_success, return_, error,
error_id, process_id for TaskResult; in particular kind and success are not
among them. -/
theorem proto_field_names_actual :
    workerProcessIDFields.map (fun f => f.fieldName) =
      ["type", "name", "slurm_job_id", "hostname", "pid"] ∧
    ("kind" ∉ workerProcessIDFields.map (fun f => f.fieldName)) ∧
    taskResultFields.map (fun f => f.fieldName) =
      ["task_id", "task_success", "return_", "error", "error_id", "process_id"] ∧
    ("success" ∉ taskResultFields.map (fun f => f.fieldName)) :=
  ⟨rfl, by decide, rfl, by decide⟩

end SlurmPilot
